import Mathlib

/-!
# `argb2yolo`: packed ARGB pixels to normalised RGB floats

A shallow embedding of `app/src/main/cpp/image_processing.cpp`, the JNI entry
point `Java_com_ultralytics_yolo_ImageProcessing_argb2yolo`, together with the
properties of it that are established below.

* `float` is IEEE-754 binary32.  A finite binary32 number is represented by its
  exact rational value, and every arithmetic operation is the exact operation
  followed by `f32Round` (round to nearest, ties to even, 24 significant bits,
  gradual underflow below `2^-126`).  Overflow to infinity is outside the
  embedding; every number the routine computes lies in `[0, 1]`.
* `jint` is a mathematical integer; `static_cast<uint32_t>` reduces it modulo
  `2^32` and the `int` product `width * height` is taken in two's complement.
* The JNI environment is a record of the two buffers and of whether each of the
  two address lookups succeeds.  An execution records the JNI calls, the source
  loads and the destination stores it performs, in order.
-/

namespace ImageProcessing

/-! ## binary32 arithmetic -/

/-- Position of the highest set bit, by repeated halving (`fuel` bounds the number of halvings). -/
def log2Fuel : Nat → Nat → Nat
  | 0, _ => 0
  | fuel + 1, n => if n < 2 then 0 else log2Fuel fuel (n / 2) + 1

/-- Floor of the base-2 logarithm of a positive natural number (`0` at `0`). -/
def natLog2 (n : Nat) : Nat := log2Fuel n n

/-- The integer `e` with `2^e ≤ |x| < 2^(e+1)`, for `x ≠ 0`. -/
def floorLog2 (x : ℚ) : ℤ :=
  let e : ℤ := (natLog2 x.num.natAbs : ℤ) - (natLog2 x.den : ℤ)
  if (2 : ℚ) ^ e ≤ |x| then e else e - 1

/-- Nearest integer, ties to the even one. -/
def roundHalfEven (x : ℚ) : ℤ :=
  let f := ⌊x⌋
  let r := x - f
  if r < 1 / 2 then f
  else if 1 / 2 < r then f + 1
  else if f % 2 = 0 then f else f + 1

/-- Spacing of the binary32 numbers around `x`: `2^(e-23)` where `2^e ≤ |x| < 2^(e+1)`,
with the exponent clamped at the smallest normal exponent `-126`. -/
def ulp (x : ℚ) : ℚ :=
  if x = 0 then 2 ^ (-149 : ℤ) else 2 ^ (max (floorLog2 x) (-126) - 23)

/-- Rounding of a rational to binary32, round-to-nearest-even. -/
def f32Round (x : ℚ) : ℚ :=
  if x = 0 then 0
  else
    let q : ℚ := 2 ^ (max (floorLog2 x) (-126) - 23)
    roundHalfEven (x / q) * q

/-- The binary32 quotient `a / b`. -/
def f32Div (a b : ℚ) : ℚ := f32Round (a / b)

/-- The binary32 product `a * b`. -/
def f32Mul (a b : ℚ) : ℚ := f32Round (a * b)

/-- Conversion of a `uint32_t` operand to `float` (usual arithmetic conversions). -/
def f32OfUInt32 (n : Nat) : ℚ := f32Round n

/-- The constant `static const float inv255 = 1.0f / 255.0f;`. -/
def inv255 : ℚ := f32Div (f32Round 1) (f32Round 255)

/-! ## per-pixel arithmetic -/

/-- The conversion `static_cast<uint32_t>(*srcPtr)` of a `jint`. -/
def toUInt32 (v : Int) : Nat := (v % 4294967296).toNat

/-- The `int` product of two `jint`s, in two's complement. -/
def mulInt32 (a b : Int) : Int := (a * b + 2147483648) % 4294967296 - 2147483648

/-- The red byte `(pixel >> 16) & 0xFF`. -/
def redByte (pixel : Nat) : Nat := (pixel >>> 16) &&& 0xFF

/-- The green byte `(pixel >> 8) & 0xFF`. -/
def greenByte (pixel : Nat) : Nat := (pixel >>> 8) &&& 0xFF

/-- The blue byte `pixel & 0xFF`. -/
def blueByte (pixel : Nat) : Nat := pixel &&& 0xFF

/-- The product `c * inv255` of a `uint32_t` byte value with the `float` constant. -/
def scaleByte (c : Nat) : ℚ := f32Mul (f32OfUInt32 c) inv255

/-! ## the JNI environment -/

/-- The release mode `JNI_ABORT` of `jni.h`: free the buffer without copying back. -/
def JNI_ABORT : Int := 2

/-- Largest `jsize`, the type of a Java array length. -/
def jsizeMax : Nat := 2147483647

/-- A Java `int[]`: its elements, and a length that fits a `jsize`. -/
structure JIntArray where
  /-- The elements, in index order. -/
  elems : List Int
  /-- A Java array length is a non-negative 32-bit signed integer. -/
  length_le : elems.length ≤ jsizeMax

/-- What the caller hands to the native method. -/
structure Jvm where
  /-- The array behind `srcArray`. -/
  srcArray : JIntArray
  /-- Whether `GetPrimitiveArrayCritical(srcArray, NULL)` yields a non-NULL pointer. -/
  srcCritical : Bool
  /-- The `float` slots of the memory behind `destBuffer`. -/
  destMem : List ℚ
  /-- Whether `GetDirectBufferAddress(destBuffer)` yields a non-NULL address. -/
  destDirect : Bool

/-- Undefined behaviour the routine can run into. -/
inductive Fault
  | nullSource
  | sourceOutOfBounds
  | destOutOfBounds
  deriving DecidableEq, Repr

/-- The observable steps of an execution. -/
inductive Event
  | GetDirectBufferAddress
  | GetPrimitiveArrayCritical
  | load (srcPtr : Nat)
  | store (destPtr : Nat) (value : ℚ)
  | ReleasePrimitiveArrayCritical (mode : Int)
  deriving DecidableEq

/-- An execution in progress: the buffers, the steps so far, and the fault that stopped it. -/
structure Exec where
  /-- The buffers. -/
  jvm : Jvm
  /-- The steps performed so far, oldest first. -/
  trace : List Event
  /-- The fault that ended the execution, when there is one. -/
  fault : Option Fault

/-- The execution before its first step. -/
def Exec.start (env : Jvm) : Exec := ⟨env, [], none⟩

/-- Record one step. -/
def Exec.log (x : Exec) (e : Event) : Exec := { x with trace := x.trace ++ [e] }

/-- Stop with a fault. -/
def Exec.crash (x : Exec) (f : Fault) : Exec := { x with fault := some f }

/-- The pointer `env->GetDirectBufferAddress(destBuffer)`: slot `0` of the destination, or NULL. -/
def GetDirectBufferAddress (env : Jvm) : Option Nat :=
  if env.destDirect then some 0 else none

/-- The pointer `env->GetPrimitiveArrayCritical(srcArray, NULL)`: element `0` of the source, or NULL. -/
def GetPrimitiveArrayCritical (env : Jvm) : Option Nat :=
  if env.srcCritical then some 0 else none

/-- The read `*srcPtr`. -/
def loadSrc (srcPtr : Option Nat) (x : Exec) : Option Int × Exec :=
  match srcPtr with
  | none => (none, x.crash .nullSource)
  | some p =>
    match x.jvm.srcArray.elems[p]? with
    | none => (none, x.crash .sourceOutOfBounds)
    | some v => (some v, x.log (.load p))

/-- The write `*destPtr = value`; a faulted execution performs no further step. -/
def storeDest (destPtr : Nat) (value : ℚ) (x : Exec) : Exec :=
  if x.fault.isSome then x
  else if destPtr < x.jvm.destMem.length then
    { x with jvm := { x.jvm with destMem := x.jvm.destMem.set destPtr value },
             trace := x.trace ++ [.store destPtr value] }
  else x.crash .destOutOfBounds

/-! ## the routine -/

/-- The loop `for (int i = 0; i < numPixels; ++i, ++srcPtr)`, with `remaining = numPixels - i`
iterations to go. -/
def pixelLoop : Nat → Option Nat → Nat → Exec → Exec
  | 0, _, _, x => x
  | remaining + 1, srcPtr, destPtr, x =>
    match loadSrc srcPtr x with
    | (none, x) => x
    | (some v, x) =>
      let pixel := toUInt32 v
      let x := storeDest destPtr (scaleByte (redByte pixel)) x
      let x := storeDest (destPtr + 1) (scaleByte (greenByte pixel)) x
      let x := storeDest (destPtr + 2) (scaleByte (blueByte pixel)) x
      if x.fault.isSome then x
      else pixelLoop remaining (srcPtr.map (· + 1)) (destPtr + 3) x

/-- The native method `Java_com_ultralytics_yolo_ImageProcessing_argb2yolo`. -/
def Java_com_ultralytics_yolo_ImageProcessing_argb2yolo
    (env : Jvm) (width height : Int) : Exec :=
  let x := (Exec.start env).log .GetDirectBufferAddress
  match GetDirectBufferAddress env with
  | none => x
  | some dest =>
    let x := x.log .GetPrimitiveArrayCritical
    let src := GetPrimitiveArrayCritical env
    let numPixels := mulInt32 width height
    let x := pixelLoop numPixels.toNat src dest x
    if x.fault.isSome then x
    else x.log (.ReleasePrimitiveArrayCritical JNI_ABORT)


/-! ## closed form of a fault-free loop -/

/-- The three floats written for one source element: red, green, blue. -/
def pixelTriple (v : Int) : List ℚ :=
  [scaleByte (redByte (toUInt32 v)), scaleByte (greenByte (toUInt32 v)),
    scaleByte (blueByte (toUInt32 v))]

/-- Memory after `n` fault-free iterations starting at source index `sp`, destination slot `dp`. -/
def writePixels (s : List Int) : Nat → Nat → Nat → List ℚ → List ℚ
  | 0, _, _, mem => mem
  | n + 1, sp, dp, mem =>
    let pixel := toUInt32 (s.getD sp 0)
    writePixels s n (sp + 1) (dp + 3)
      (((mem.set dp (scaleByte (redByte pixel))).set (dp + 1) (scaleByte (greenByte pixel))).set
        (dp + 2) (scaleByte (blueByte pixel)))

/-- Steps of `n` fault-free iterations starting at source index `sp`, destination slot `dp`. -/
def pixelEvents (s : List Int) : Nat → Nat → Nat → List Event
  | 0, _, _ => []
  | n + 1, sp, dp =>
    let pixel := toUInt32 (s.getD sp 0)
    [.load sp, .store dp (scaleByte (redByte pixel)), .store (dp + 1) (scaleByte (greenByte pixel)),
      .store (dp + 2) (scaleByte (blueByte pixel))] ++ pixelEvents s n (sp + 1) (dp + 3)

/-- The source index of a load step. -/
def Event.loadIndex : Event → Option Nat
  | .load p => some p
  | _ => none

/-- The mode of a release step. -/
def Event.releaseMode : Event → Option Int
  | .ReleasePrimitiveArrayCritical mode => some mode
  | _ => none

/-- The 4x4 image filled with `0x00FF8000`, with a destination of 48 slots holding `7`. -/
def gridEnv : Jvm :=
  ⟨⟨List.replicate 16 16744448, by decide⟩, true, List.replicate 48 7, true⟩

/-- Three pixels (`0x00FF8000`, `0xFFFFFFFF`, `0xFF000000` as `jint`s) and a destination of
ten slots holding `7`. -/
def sampleEnv : Jvm :=
  ⟨⟨[16744448, -1, -16777216], by decide⟩, true, List.replicate 10 7, true⟩

/-- The low 24 bits (red, green, blue) of a source element. -/
def low24 (v : Int) : Nat := toUInt32 v % 16777216

/-- Two executions that agree on everything but the source array. -/
def Exec.sameOutput (x y : Exec) : Prop :=
  x.jvm.destMem = y.jvm.destMem ∧ x.trace = y.trace ∧ x.fault = y.fault

/-- One pixel `0xFF000000` (as a `jint`) and a destination of three slots holding `7`. -/
def opaqueBlackEnv : Jvm := ⟨⟨[-16777216], by decide⟩, true, [7, 7, 7], true⟩

/-- One pixel `0x00000000` and a destination of three slots holding `7`. -/
def clearBlackEnv : Jvm := ⟨⟨[0], by decide⟩, true, [7, 7, 7], true⟩

/-- One pixel `0xFFFFFFFF` (the `jint` `-1`) and a destination of three slots holding `7`. -/
def whiteEnv : Jvm := ⟨⟨[-1], by decide⟩, true, [7, 7, 7], true⟩

/-- Whether a step is a memory access of the loop body: a source load or a destination store. -/
def Event.isAccess : Event → Bool
  | .load _ => true
  | .store _ _ => true
  | _ => false

/-- The sample buffers with a source whose critical acquisition fails. -/
def nullSourceEnv : Jvm :=
  ⟨⟨[16744448, -1, -16777216], by decide⟩, false, List.replicate 10 7, true⟩

/-- The sample buffers behind a destination handle that does not resolve. -/
def indirectEnv : Jvm :=
  ⟨⟨[16744448, -1, -16777216], by decide⟩, true, List.replicate 10 7, false⟩

/-- One source pixel `v` and a destination of three slots holding `7`, both lookups
succeeding. -/
def onePixelEnv (v : Int) : Jvm := ⟨⟨[v], by simp [jsizeMax]⟩, true, [7, 7, 7], true⟩

theorem storeDest_ok (p : Nat) (v : ℚ) (x : Exec) (hf : x.fault = none)
    (hp : p < x.jvm.destMem.length) :
    storeDest p v x =
      ⟨{ x.jvm with destMem := x.jvm.destMem.set p v }, x.trace ++ [.store p v], none⟩ := by
  obtain ⟨jvm, tr, f⟩ := x
  simp only at hf hp
  subst hf
  simp [storeDest, hp]

theorem loadSrc_ok (p : Nat) (x : Exec) (hp : p < x.jvm.srcArray.elems.length) :
    loadSrc (some p) x = (some (x.jvm.srcArray.elems.getD p 0), x.log (.load p)) := by
  simp [loadSrc, List.getElem?_eq_getElem hp, List.getD]

theorem pixelLoop_ok (n : Nat) : ∀ (sp dp : Nat) (x : Exec), x.fault = none →
    sp + n ≤ x.jvm.srcArray.elems.length → dp + 3 * n ≤ x.jvm.destMem.length →
    pixelLoop n (some sp) dp x =
      ⟨{ x.jvm with destMem := writePixels x.jvm.srcArray.elems n sp dp x.jvm.destMem },
        x.trace ++ pixelEvents x.jvm.srcArray.elems n sp dp, none⟩ := by
  induction n with
  | zero =>
    intro sp dp x hf _ _
    obtain ⟨jvm, tr, f⟩ := x
    simp only at hf
    subst hf
    simp [pixelLoop, writePixels, pixelEvents]
  | succ n ih =>
    intro sp dp x hf hs hd
    obtain ⟨jvm, tr, f⟩ := x
    simp only at hf hs hd
    subst hf
    rw [pixelLoop, loadSrc_ok _ _ (by simp only; omega)]
    simp only [Exec.log]
    rw [storeDest_ok dp _ _ rfl (by simp only; omega)]
    rw [storeDest_ok (dp + 1) _ _ rfl (by simp only [List.length_set]; omega)]
    rw [storeDest_ok (dp + 2) _ _ rfl (by simp only [List.length_set]; omega)]
    simp only [Option.isSome_none, Bool.false_eq_true, ↓reduceIte, Option.map_some']
    rw [ih _ _ _ rfl (by simp only; omega) (by simp only [List.length_set]; omega)]
    simp [writePixels, pixelEvents]

theorem writePixels_length (s : List Int) (n : Nat) : ∀ (sp dp : Nat) (mem : List ℚ),
    (writePixels s n sp dp mem).length = mem.length := by
  induction n with
  | zero => intro sp dp mem; rfl
  | succ n ih => intro sp dp mem; simp [writePixels, ih]

theorem writePixels_below (s : List Int) (n : Nat) : ∀ (sp dp : Nat) (mem : List ℚ) (j : Nat),
    j < dp → (writePixels s n sp dp mem)[j]? = mem[j]? := by
  induction n with
  | zero => intro sp dp mem j _; rfl
  | succ n ih =>
    intro sp dp mem j hj
    rw [writePixels, ih _ _ _ _ (by omega)]
    rw [List.getElem?_set_ne (by omega), List.getElem?_set_ne (by omega),
      List.getElem?_set_ne (by omega)]

theorem writePixels_pixel (s : List Int) (n : Nat) : ∀ (sp dp : Nat) (mem : List ℚ) (k : Nat),
    k < n → dp + 3 * n ≤ mem.length →
    (writePixels s n sp dp mem)[dp + 3 * k]? =
        some (scaleByte (redByte (toUInt32 (s.getD (sp + k) 0)))) ∧
      (writePixels s n sp dp mem)[dp + 3 * k + 1]? =
        some (scaleByte (greenByte (toUInt32 (s.getD (sp + k) 0)))) ∧
      (writePixels s n sp dp mem)[dp + 3 * k + 2]? =
        some (scaleByte (blueByte (toUInt32 (s.getD (sp + k) 0)))) := by
  induction n with
  | zero => intro sp dp mem k hk; omega
  | succ n ih =>
    intro sp dp mem k hk hd
    rw [writePixels]
    cases k with
    | zero =>
      simp only [Nat.mul_zero, Nat.add_zero]
      rw [writePixels_below _ _ _ _ _ _ (by omega), writePixels_below _ _ _ _ _ _ (by omega),
        writePixels_below _ _ _ _ _ _ (by omega)]
      refine ⟨?_, ?_, ?_⟩
      · rw [List.getElem?_set_ne (by omega), List.getElem?_set_ne (by omega),
          List.getElem?_set_self (by omega)]
      · rw [List.getElem?_set_ne (by omega),
          List.getElem?_set_self (by simp only [List.length_set]; omega)]
      · rw [List.getElem?_set_self (by simp only [List.length_set]; omega)]
    | succ k =>
      have h := ih (sp + 1) (dp + 3)
        (((mem.set dp (scaleByte (redByte (toUInt32 (s.getD sp 0))))).set (dp + 1)
          (scaleByte (greenByte (toUInt32 (s.getD sp 0))))).set (dp + 2)
          (scaleByte (blueByte (toUInt32 (s.getD sp 0))))) k (by omega)
        (by simp only [List.length_set]; omega)
      have e1 : dp + 3 * (k + 1) = dp + 3 + 3 * k := by omega
      have e2 : sp + (k + 1) = sp + 1 + k := by omega
      rw [e1, e2]
      exact h

theorem pixelEvents_loadIndex (s : List Int) (n : Nat) : ∀ (sp dp : Nat),
    (pixelEvents s n sp dp).filterMap Event.loadIndex = List.range' sp n := by
  induction n with
  | zero => intro sp dp; rfl
  | succ n ih =>
    intro sp dp
    simp [pixelEvents, Event.loadIndex, ih, List.range'_succ]

theorem pixelEvents_releaseMode (s : List Int) (n : Nat) : ∀ (sp dp : Nat),
    (pixelEvents s n sp dp).filterMap Event.releaseMode = [] := by
  induction n with
  | zero => intro sp dp; rfl
  | succ n ih =>
    intro sp dp
    simp [pixelEvents, Event.releaseMode, ih]

theorem mulInt32_eq (a b : Int) (h0 : 0 ≤ a * b) (h1 : a * b ≤ 2147483647) :
    mulInt32 a b = a * b := by
  unfold mulInt32
  generalize a * b = p at h0 h1
  omega

theorem redByte_eq (p : Nat) : redByte p = p / 65536 % 256 := by
  unfold redByte
  rw [Nat.shiftRight_eq_div_pow]
  exact Nat.and_pow_two_sub_one_eq_mod _ 8

theorem greenByte_eq (p : Nat) : greenByte p = p / 256 % 256 := by
  unfold greenByte
  rw [Nat.shiftRight_eq_div_pow]
  exact Nat.and_pow_two_sub_one_eq_mod _ 8

theorem blueByte_eq (p : Nat) : blueByte p = p % 256 := by
  unfold blueByte
  exact Nat.and_pow_two_sub_one_eq_mod _ 8

set_option maxRecDepth 100000 in
theorem scaleByte_eq : ∀ c < 256, scaleByte c = f32Round ((c : ℚ) * f32Round (1 / 255)) := by
  decide!

/-- A run with both lookups successful and buffers large enough for `numPixels` pixels. -/
theorem argb2yolo_ok (env : Jvm) (width height : Int)
    (hdest : env.destDirect = true) (hsrc : env.srcCritical = true)
    (hlen : (mulInt32 width height).toNat ≤ env.srcArray.elems.length)
    (hcap : 3 * (mulInt32 width height).toNat ≤ env.destMem.length) :
    Java_com_ultralytics_yolo_ImageProcessing_argb2yolo env width height =
      ⟨{ env with destMem :=
            writePixels env.srcArray.elems (mulInt32 width height).toNat 0 0 env.destMem },
        [.GetDirectBufferAddress, .GetPrimitiveArrayCritical] ++
          pixelEvents env.srcArray.elems (mulInt32 width height).toNat 0 0 ++
          [.ReleasePrimitiveArrayCritical JNI_ABORT], none⟩ := by
  unfold Java_com_ultralytics_yolo_ImageProcessing_argb2yolo
  simp only [GetDirectBufferAddress, GetPrimitiveArrayCritical, hdest, hsrc, if_true]
  rw [pixelLoop_ok _ _ _ _ rfl (by simpa [Exec.log, Exec.start] using hlen)
    (by simpa [Exec.log, Exec.start] using hcap)]
  simp [Exec.log, Exec.start, hsrc, hdest]

/-! ## invariants of every execution, faulting or not -/

theorem storeDest_frame (p : Nat) (v : ℚ) (x : Exec) :
    (storeDest p v x).jvm.srcArray = x.jvm.srcArray ∧
      (storeDest p v x).jvm.srcCritical = x.jvm.srcCritical ∧
      (storeDest p v x).jvm.destDirect = x.jvm.destDirect := by
  unfold storeDest
  split
  · exact ⟨rfl, rfl, rfl⟩
  · split
    · exact ⟨rfl, rfl, rfl⟩
    · exact ⟨rfl, rfl, rfl⟩

theorem storeDest_trace (P : Event → Prop) (p : Nat) (v : ℚ) (x : Exec)
    (hx : ∀ e ∈ x.trace, P e) (hv : P (.store p v)) : ∀ e ∈ (storeDest p v x).trace, P e := by
  unfold storeDest
  split
  · exact hx
  · split
    · intro e he
      simp only [List.mem_append, List.mem_singleton] at he
      rcases he with he | he
      · exact hx e he
      · rw [he]; exact hv
    · exact hx

theorem loadSrc_frame (sp : Option Nat) (x : Exec) :
    (loadSrc sp x).2.jvm = x.jvm := by
  unfold loadSrc
  split
  · rfl
  · split <;> rfl

theorem loadSrc_trace (P : Event → Prop) (sp : Option Nat) (x : Exec)
    (hx : ∀ e ∈ x.trace, P e) (hl : ∀ p, P (.load p)) : ∀ e ∈ (loadSrc sp x).2.trace, P e := by
  unfold loadSrc
  split
  · exact hx
  · split
    · exact hx
    · intro e he
      simp only [Exec.log, List.mem_append, List.mem_singleton] at he
      rcases he with he | he
      · exact hx e he
      · rw [he]; exact hl _

theorem redByte_lt (p : Nat) : redByte p < 256 := by
  rw [redByte_eq]; exact Nat.mod_lt _ (by decide)

theorem greenByte_lt (p : Nat) : greenByte p < 256 := by
  rw [greenByte_eq]; exact Nat.mod_lt _ (by decide)

theorem blueByte_lt (p : Nat) : blueByte p < 256 := by
  rw [blueByte_eq]; exact Nat.mod_lt _ (by decide)

/-- The loop leaves the source array and the two lookup outcomes as they are. -/
theorem pixelLoop_frame (n : Nat) : ∀ (sp : Option Nat) (dp : Nat) (x : Exec),
    (pixelLoop n sp dp x).jvm.srcArray = x.jvm.srcArray ∧
      (pixelLoop n sp dp x).jvm.srcCritical = x.jvm.srcCritical ∧
      (pixelLoop n sp dp x).jvm.destDirect = x.jvm.destDirect := by
  induction n with
  | zero => intro sp dp x; exact ⟨rfl, rfl, rfl⟩
  | succ n ih =>
    intro sp dp x
    rw [pixelLoop]
    have hl := loadSrc_frame sp x
    rcases hload : loadSrc sp x with ⟨ov, x1⟩
    rw [hload] at hl
    simp only at hl
    cases ov with
    | none => simp only; rw [hl]; exact ⟨rfl, rfl, rfl⟩
    | some v =>
      simp only
      have h1 := storeDest_frame dp (scaleByte (redByte (toUInt32 v))) x1
      have h2 := storeDest_frame (dp + 1) (scaleByte (greenByte (toUInt32 v)))
        (storeDest dp (scaleByte (redByte (toUInt32 v))) x1)
      have h3 := storeDest_frame (dp + 2) (scaleByte (blueByte (toUInt32 v)))
        (storeDest (dp + 1) (scaleByte (greenByte (toUInt32 v)))
          (storeDest dp (scaleByte (redByte (toUInt32 v))) x1))
      have hall :
          (storeDest (dp + 2) (scaleByte (blueByte (toUInt32 v)))
            (storeDest (dp + 1) (scaleByte (greenByte (toUInt32 v)))
              (storeDest dp (scaleByte (redByte (toUInt32 v))) x1))).jvm.srcArray =
              x.jvm.srcArray ∧
            (storeDest (dp + 2) (scaleByte (blueByte (toUInt32 v)))
              (storeDest (dp + 1) (scaleByte (greenByte (toUInt32 v)))
                (storeDest dp (scaleByte (redByte (toUInt32 v))) x1))).jvm.srcCritical =
              x.jvm.srcCritical ∧
            (storeDest (dp + 2) (scaleByte (blueByte (toUInt32 v)))
              (storeDest (dp + 1) (scaleByte (greenByte (toUInt32 v)))
                (storeDest dp (scaleByte (redByte (toUInt32 v))) x1))).jvm.destDirect =
              x.jvm.destDirect := by
        rw [h3.1, h3.2.1, h3.2.2, h2.1, h2.2.1, h2.2.2, h1.1, h1.2.1, h1.2.2, hl]
        exact ⟨rfl, rfl, rfl⟩
      split
      · exact hall
      · have h := ih (sp.map (· + 1)) (dp + 3)
          (storeDest (dp + 2) (scaleByte (blueByte (toUInt32 v)))
            (storeDest (dp + 1) (scaleByte (greenByte (toUInt32 v)))
              (storeDest dp (scaleByte (redByte (toUInt32 v))) x1)))
        rw [h.1, h.2.1, h.2.2]
        exact hall

/-- Every step the loop adds is a load, or a store of a scaled byte. -/
theorem pixelLoop_trace (P : Event → Prop) (hl : ∀ p, P (.load p))
    (hs : ∀ p c, c < 256 → P (.store p (scaleByte c))) (n : Nat) :
    ∀ (sp : Option Nat) (dp : Nat) (x : Exec), (∀ e ∈ x.trace, P e) →
      ∀ e ∈ (pixelLoop n sp dp x).trace, P e := by
  induction n with
  | zero => intro sp dp x hx; exact hx
  | succ n ih =>
    intro sp dp x hx
    rw [pixelLoop]
    have ht := loadSrc_trace P sp x hx hl
    rcases hload : loadSrc sp x with ⟨ov, x1⟩
    rw [hload] at ht
    simp only at ht
    cases ov with
    | none => exact ht
    | some v =>
      simp only
      have h3 := storeDest_trace P (dp + 2) (scaleByte (blueByte (toUInt32 v))) _
        (storeDest_trace P (dp + 1) (scaleByte (greenByte (toUInt32 v))) _
          (storeDest_trace P dp (scaleByte (redByte (toUInt32 v))) x1 ht
            (hs _ _ (redByte_lt _)))
          (hs _ _ (greenByte_lt _)))
        (hs _ _ (blueByte_lt _))
      split
      · exact h3
      · exact ih _ _ _ h3

/-- Steps of any call: the two lookups, loads, stores of scaled bytes, and releases in mode
`JNI_ABORT`. -/
theorem argb2yolo_trace (P : Event → Prop) (hd : P .GetDirectBufferAddress)
    (hc : P .GetPrimitiveArrayCritical) (hl : ∀ p, P (.load p))
    (hs : ∀ p c, c < 256 → P (.store p (scaleByte c)))
    (hr : P (.ReleasePrimitiveArrayCritical JNI_ABORT)) (env : Jvm) (width height : Int) :
    ∀ e ∈ (Java_com_ultralytics_yolo_ImageProcessing_argb2yolo env width height).trace, P e := by
  have h0 : ∀ e ∈ ((Exec.start env).log .GetDirectBufferAddress).trace, P e := by
    intro e he
    simp only [Exec.log, Exec.start, List.nil_append, List.mem_singleton] at he
    rw [he]; exact hd
  have h1 : ∀ e ∈ (((Exec.start env).log .GetDirectBufferAddress).log
      .GetPrimitiveArrayCritical).trace, P e := by
    intro e he
    simp only [Exec.log, Exec.start, List.nil_append, List.mem_append, List.mem_singleton] at he
    rcases he with he | he
    · rw [he]; exact hd
    · rw [he]; exact hc
  unfold Java_com_ultralytics_yolo_ImageProcessing_argb2yolo
  simp only
  split
  · exact h0
  · rename_i dest _
    have h2 := pixelLoop_trace P hl hs (mulInt32 width height).toNat
      (GetPrimitiveArrayCritical env) dest _ h1
    split
    · exact h2
    · intro e he
      simp only [Exec.log, List.mem_append, List.mem_singleton] at he
      rcases he with he | he
      · exact h2 e he
      · rw [he]; exact hr

/-! ## executions on sources that agree on the colour bits -/

theorem redByte_low24 (v : Int) : redByte (toUInt32 v) = low24 v / 65536 % 256 := by
  rw [redByte_eq]; unfold low24; omega

theorem greenByte_low24 (v : Int) : greenByte (toUInt32 v) = low24 v / 256 % 256 := by
  rw [greenByte_eq]; unfold low24; omega

theorem blueByte_low24 (v : Int) : blueByte (toUInt32 v) = low24 v % 256 := by
  rw [blueByte_eq]; unfold low24; omega

theorem pixelTriple_low24 (v₁ v₂ : Int) (h : low24 v₁ = low24 v₂) :
    pixelTriple v₁ = pixelTriple v₂ := by
  unfold pixelTriple
  rw [redByte_low24, greenByte_low24, blueByte_low24, redByte_low24, greenByte_low24,
    blueByte_low24, h]

theorem storeDest_sameOutput (p : Nat) (v : ℚ) (x y : Exec) (h : x.sameOutput y) :
    (storeDest p v x).sameOutput (storeDest p v y) := by
  obtain ⟨jx, tx, fx⟩ := x
  obtain ⟨jy, ty, fy⟩ := y
  obtain ⟨hm, ht, hf⟩ := h
  simp only at hm ht hf
  subst ht hf
  unfold storeDest
  simp only [hm]
  split
  · exact ⟨hm, rfl, rfl⟩
  · split
    · exact ⟨by simp only [hm], rfl, rfl⟩
    · exact ⟨hm, rfl, rfl⟩

theorem pixelLoop_sameOutput (n : Nat) : ∀ (sp : Option Nat) (dp : Nat) (x y : Exec),
    x.jvm.srcArray.elems.map low24 = y.jvm.srcArray.elems.map low24 → x.sameOutput y →
    (pixelLoop n sp dp x).sameOutput (pixelLoop n sp dp y) := by
  induction n with
  | zero => intro sp dp x y _ h; exact h
  | succ n ih =>
    intro sp dp x y hsrc h
    rw [pixelLoop, pixelLoop]
    cases sp with
    | none => exact ⟨h.1, h.2.1, rfl⟩
    | some p =>
      have hp : (x.jvm.srcArray.elems[p]?).map low24 = (y.jvm.srcArray.elems[p]?).map low24 := by
        rw [← List.getElem?_map, ← List.getElem?_map, hsrc]
      simp only [loadSrc]
      rcases hx : x.jvm.srcArray.elems[p]? with _ | vx <;>
        rcases hy : y.jvm.srcArray.elems[p]? with _ | vy <;>
        rw [hx, hy] at hp <;> simp only [Option.map_none', Option.map_some', reduceCtorEq] at hp
      · exact ⟨h.1, h.2.1, rfl⟩
      · have hv : low24 vx = low24 vy := Option.some.inj hp
        have hlog : (x.log (.load p)).sameOutput (y.log (.load p)) :=
          ⟨h.1, by simp only [Exec.log, h.2.1], h.2.2⟩
        simp only [Option.map_some']
        rw [redByte_low24, greenByte_low24, blueByte_low24, redByte_low24, greenByte_low24,
          blueByte_low24, hv]
        have h3 := storeDest_sameOutput (dp + 2) (scaleByte (low24 vy % 256)) _ _
          (storeDest_sameOutput (dp + 1) (scaleByte (low24 vy / 256 % 256)) _ _
            (storeDest_sameOutput dp (scaleByte (low24 vy / 65536 % 256)) _ _ hlog))
        rw [h3.2.2]
        split
        · exact h3
        · refine ih _ _ _ _ ?_ h3
          have fx := fun v q (z : Exec) => (storeDest_frame q v z).1
          rw [fx, fx, fx, fx, fx, fx]
          exact hsrc

/-! ## the written prefix -/

theorem argb2yolo_srcArray (env : Jvm) (width height : Int) :
    (Java_com_ultralytics_yolo_ImageProcessing_argb2yolo env width height).jvm.srcArray =
      env.srcArray := by
  unfold Java_com_ultralytics_yolo_ImageProcessing_argb2yolo
  simp only
  split
  · rfl
  · rename_i dest _
    have h := (pixelLoop_frame (mulInt32 width height).toNat (GetPrimitiveArrayCritical env) dest
      (((Exec.start env).log .GetDirectBufferAddress).log .GetPrimitiveArrayCritical)).1
    split
    · exact h
    · exact h

/-! ## shape of the sequence of steps -/

theorem storeDest_trace_append (p : Nat) (v : ℚ) (x : Exec) :
    ∃ mid, (storeDest p v x).trace = x.trace ++ mid ∧ ∀ e ∈ mid, e.isAccess = true := by
  unfold storeDest
  split
  · exact ⟨[], by simp, by simp⟩
  · split
    · exact ⟨[.store p v], rfl, by simp [Event.isAccess]⟩
    · exact ⟨[], by simp [Exec.crash], by simp⟩

theorem loadSrc_trace_append (sp : Option Nat) (x : Exec) :
    ∃ mid, (loadSrc sp x).2.trace = x.trace ++ mid ∧ ∀ e ∈ mid, e.isAccess = true := by
  unfold loadSrc
  split
  · exact ⟨[], by simp [Exec.crash], by simp⟩
  · split
    · exact ⟨[], by simp [Exec.crash], by simp⟩
    · refine ⟨[.load _], rfl, ?_⟩
      simp [Event.isAccess]

/-- The loop extends the sequence of steps by loads and stores only. -/
theorem pixelLoop_trace_append (n : Nat) : ∀ (sp : Option Nat) (dp : Nat) (x : Exec),
    ∃ mid, (pixelLoop n sp dp x).trace = x.trace ++ mid ∧ ∀ e ∈ mid, e.isAccess = true := by
  induction n with
  | zero => intro sp dp x; exact ⟨[], by simp [pixelLoop], by simp⟩
  | succ n ih =>
    intro sp dp x
    rw [pixelLoop]
    obtain ⟨m0, h0, a0⟩ := loadSrc_trace_append sp x
    rcases hload : loadSrc sp x with ⟨ov, x1⟩
    rw [hload] at h0
    simp only at h0
    cases ov with
    | none => exact ⟨m0, h0, a0⟩
    | some v =>
      simp only
      obtain ⟨m1, h1, a1⟩ := storeDest_trace_append dp (scaleByte (redByte (toUInt32 v))) x1
      obtain ⟨m2, h2, a2⟩ := storeDest_trace_append (dp + 1)
        (scaleByte (greenByte (toUInt32 v))) (storeDest dp (scaleByte (redByte (toUInt32 v))) x1)
      obtain ⟨m3, h3, a3⟩ := storeDest_trace_append (dp + 2)
        (scaleByte (blueByte (toUInt32 v)))
        (storeDest (dp + 1) (scaleByte (greenByte (toUInt32 v)))
          (storeDest dp (scaleByte (redByte (toUInt32 v))) x1))
      have hbody :
          (storeDest (dp + 2) (scaleByte (blueByte (toUInt32 v)))
            (storeDest (dp + 1) (scaleByte (greenByte (toUInt32 v)))
              (storeDest dp (scaleByte (redByte (toUInt32 v))) x1))).trace =
            x.trace ++ (m0 ++ m1 ++ m2 ++ m3) := by
        rw [h3, h2, h1, h0]
        simp only [List.append_assoc]
      have abody : ∀ e ∈ m0 ++ m1 ++ m2 ++ m3, e.isAccess = true := by
        intro e he
        simp only [List.mem_append] at he
        rcases he with ((he | he) | he) | he
        · exact a0 e he
        · exact a1 e he
        · exact a2 e he
        · exact a3 e he
      split
      · exact ⟨_, hbody, abody⟩
      · obtain ⟨m4, h4, a4⟩ := ih (sp.map (· + 1)) (dp + 3)
          (storeDest (dp + 2) (scaleByte (blueByte (toUInt32 v)))
            (storeDest (dp + 1) (scaleByte (greenByte (toUInt32 v)))
              (storeDest dp (scaleByte (redByte (toUInt32 v))) x1)))
        refine ⟨m0 ++ m1 ++ m2 ++ m3 ++ m4, ?_, ?_⟩
        · rw [h4, hbody]
          simp only [List.append_assoc]
        · intro e he
          rw [List.mem_append] at he
          rcases he with he | he
          · exact abody e he
          · exact a4 e he

/-- Steps of a call: the destination lookup alone when it fails; otherwise the two lookups,
then loads and stores, then the release unless a fault stopped the execution. -/
theorem argb2yolo_shape (env : Jvm) (width height : Int) :
    (env.destDirect = false →
        (Java_com_ultralytics_yolo_ImageProcessing_argb2yolo env width height).trace =
          [.GetDirectBufferAddress]) ∧
      (env.destDirect = true → ∃ mid, (∀ e ∈ mid, e.isAccess = true) ∧
        (Java_com_ultralytics_yolo_ImageProcessing_argb2yolo env width height).trace =
          [.GetDirectBufferAddress, .GetPrimitiveArrayCritical] ++ mid ++
            (if (Java_com_ultralytics_yolo_ImageProcessing_argb2yolo env width height).fault = none
              then [.ReleasePrimitiveArrayCritical JNI_ABORT] else [])) := by
  refine ⟨fun hd => ?_, fun hd => ?_⟩
  · unfold Java_com_ultralytics_yolo_ImageProcessing_argb2yolo
    simp [GetDirectBufferAddress, hd, Exec.log, Exec.start]
  · unfold Java_com_ultralytics_yolo_ImageProcessing_argb2yolo
    simp only [GetDirectBufferAddress, hd, if_true]
    obtain ⟨mid, hmid, amid⟩ := pixelLoop_trace_append (mulInt32 width height).toNat
      (GetPrimitiveArrayCritical env) 0
      (((Exec.start env).log .GetDirectBufferAddress).log .GetPrimitiveArrayCritical)
    refine ⟨mid, amid, ?_⟩
    rcases hfault : (pixelLoop (mulInt32 width height).toNat (GetPrimitiveArrayCritical env) 0
      (((Exec.start env).log .GetDirectBufferAddress).log
        .GetPrimitiveArrayCritical)).fault with _ | f
    · simp only [Exec.log, Exec.start, List.nil_append, List.singleton_append] at hmid hfault ⊢
      simp [hfault, hmid]
    · simp only [Exec.log, Exec.start, List.nil_append, List.singleton_append] at hmid hfault ⊢
      simp [hfault, hmid]

theorem filterMap_releaseMode_of_isAccess (mid : List Event)
    (h : ∀ e ∈ mid, e.isAccess = true) : mid.filterMap Event.releaseMode = [] := by
  induction mid with
  | nil => rfl
  | cons e es ih =>
    have he := h e (List.mem_cons_self _ _)
    have hes := ih (fun e' he' => h e' (List.mem_cons_of_mem _ he'))
    cases e <;> simp [Event.isAccess] at he <;> simp [Event.releaseMode, hes]

theorem count_acquire_of_isAccess (mid : List Event)
    (h : ∀ e ∈ mid, e.isAccess = true) : mid.count Event.GetPrimitiveArrayCritical = 0 := by
  rw [List.count_eq_zero]
  intro hmem
  have := h _ hmem
  simp [Event.isAccess] at this

/-- With the destination resolved and a non-positive `numPixels` the call is the two lookups
followed by the release, and touches neither buffer. -/
theorem argb2yolo_nonpositive (env : Jvm) (width height : Int)
    (hdest : env.destDirect = true) (hn : mulInt32 width height ≤ 0) :
    Java_com_ultralytics_yolo_ImageProcessing_argb2yolo env width height =
      ⟨env, [.GetDirectBufferAddress, .GetPrimitiveArrayCritical,
        .ReleasePrimitiveArrayCritical JNI_ABORT], none⟩ := by
  have h0 : (mulInt32 width height).toNat = 0 := by omega
  unfold Java_com_ultralytics_yolo_ImageProcessing_argb2yolo
  simp [GetDirectBufferAddress, hdest, h0, pixelLoop, Exec.log, Exec.start]

/-- With the destination resolved, a NULL source and a positive `numPixels`, the first
iteration reads through the NULL pointer. -/
theorem argb2yolo_null_source (env : Jvm) (width height : Int)
    (hdest : env.destDirect = true) (hsrc : env.srcCritical = false)
    (hn : 0 < mulInt32 width height) :
    Java_com_ultralytics_yolo_ImageProcessing_argb2yolo env width height =
      ⟨env, [.GetDirectBufferAddress, .GetPrimitiveArrayCritical], some .nullSource⟩ := by
  obtain ⟨k, hk⟩ : ∃ k, (mulInt32 width height).toNat = k + 1 := ⟨(mulInt32 width height).toNat - 1, by omega⟩
  unfold Java_com_ultralytics_yolo_ImageProcessing_argb2yolo
  simp [GetDirectBufferAddress, GetPrimitiveArrayCritical, hdest, hsrc, hk, pixelLoop, loadSrc,
    Exec.log, Exec.start, Exec.crash]

/-! ## monotonicity of the scaling -/

set_option maxRecDepth 100000 in
theorem scaleByte_succ_lt : ∀ c < 255, scaleByte c < scaleByte (c + 1) := by
  decide!

theorem scaleByte_lt_of_lt (c : Nat) : ∀ d : Nat, c < d → d < 256 → scaleByte c < scaleByte d := by
  intro d
  induction d with
  | zero => intro h; omega
  | succ d ih =>
    intro hcd hd
    have hstep := scaleByte_succ_lt d (by omega)
    rcases Nat.lt_or_ge c d with h | h
    · exact lt_trans (ih h (by omega)) hstep
    · have hc : c = d := by omega
      rw [hc]; exact hstep

theorem scaleByte_injective (c d : Nat) (hc : c < 256) (hd : d < 256)
    (h : scaleByte c = scaleByte d) : c = d := by
  rcases Nat.lt_trichotomy c d with hlt | heq | hgt
  · exact absurd h (ne_of_lt (scaleByte_lt_of_lt c d hlt hd))
  · exact heq
  · exact absurd h.symm (ne_of_lt (scaleByte_lt_of_lt d c hgt hc))

theorem low24_eq_bytes (v : Int) :
    low24 v = redByte (toUInt32 v) * 65536 + greenByte (toUInt32 v) * 256 +
      blueByte (toUInt32 v) := by
  rw [redByte_low24, greenByte_low24, blueByte_low24]
  have : low24 v < 16777216 := Nat.mod_lt _ (by decide)
  omega

/-! ## the colour bits of a `jint` -/

theorem low24_eq_emod (v : Int) : low24 v = (v % 16777216).toNat := by
  unfold low24 toUInt32
  omega

theorem low24_eq_iff (v₁ v₂ : Int) :
    low24 v₁ = low24 v₂ ↔ v₁ % 16777216 = v₂ % 16777216 := by
  rw [low24_eq_emod, low24_eq_emod]
  omega

theorem map_low24_of_emod (s₁ s₂ : List Int)
    (h : s₁.map (fun v => v % 16777216) = s₂.map (fun v => v % 16777216)) :
    s₁.map low24 = s₂.map low24 := by
  have e : low24 = Int.toNat ∘ (fun v : Int => v % 16777216) := by
    funext v
    exact low24_eq_emod v
  rw [e, ← List.map_map, ← List.map_map, h]

/-- The call on a single pixel leaves exactly that pixel's triple. -/
theorem argb2yolo_onePixel (v : Int) :
    Java_com_ultralytics_yolo_ImageProcessing_argb2yolo (onePixelEnv v) 1 1 =
      ⟨{ onePixelEnv v with destMem := pixelTriple v },
        [.GetDirectBufferAddress, .GetPrimitiveArrayCritical, .load 0,
          .store 0 (scaleByte (redByte (toUInt32 v))),
          .store 1 (scaleByte (greenByte (toUInt32 v))),
          .store 2 (scaleByte (blueByte (toUInt32 v))),
          .ReleasePrimitiveArrayCritical JNI_ABORT], none⟩ := by
  have h1 : (mulInt32 1 1).toNat = 1 := by decide
  rw [argb2yolo_ok (onePixelEnv v) 1 1 rfl rfl (by rw [h1]; simp [onePixelEnv])
    (by rw [h1]; simp [onePixelEnv]), h1]
  simp [onePixelEnv, writePixels, pixelEvents, pixelTriple]

/-- Equal triples force equal colour bits. -/
theorem pixelTriple_injective (v₁ v₂ : Int) (h : pixelTriple v₁ = pixelTriple v₂) :
    v₁ % 16777216 = v₂ % 16777216 := by
  unfold pixelTriple at h
  simp only [List.cons.injEq, and_true] at h
  obtain ⟨hr, hg, hb⟩ := h
  have er := scaleByte_injective _ _ (redByte_lt _) (redByte_lt _) hr
  have eg := scaleByte_injective _ _ (greenByte_lt _) (greenByte_lt _) hg
  have eb := scaleByte_injective _ _ (blueByte_lt _) (blueByte_lt _) hb
  have h1 := low24_eq_bytes v₁
  have h2 := low24_eq_bytes v₂
  rw [er, eg, eb] at h1
  exact (low24_eq_iff v₁ v₂).mp (h1.trans h2.symm)

/-! ## the claims -/

/-- C1: with both buffers resolved and large enough for `width * height` pixels, after the
call the destination slots `3i`, `3i+1`, `3i+2` of every pixel index `i < width * height` hold
the red, green and blue byte of `source[i]` (taken from `source[i] mod 2^32` as
`(u / 2^16) mod 256`, `(u / 2^8) mod 256`, `u mod 256`), each multiplied in binary32 by the
binary32 constant `1/255`; the triple is a function of `source[i]` alone. -/
theorem argb2yolo_pixel_channels (env : Jvm) (width height : Int) (i : Nat)
    (hdest : env.destDirect = true) (hsrc : env.srcCritical = true)
    (hi : (i : Int) < width * height)
    (hlen : width * height ≤ (env.srcArray.elems.length : Int))
    (hcap : 3 * (width * height) ≤ (env.destMem.length : Int)) :
    ∃ v : Int, env.srcArray.elems[i]? = some v ∧
      (Java_com_ultralytics_yolo_ImageProcessing_argb2yolo env width height).fault = none ∧
      (Java_com_ultralytics_yolo_ImageProcessing_argb2yolo env width height).jvm.destMem[3 * i]? =
        some (f32Round ((((v % 4294967296).toNat / 65536 % 256 : ℕ) : ℚ) * f32Round (1 / 255))) ∧
      (Java_com_ultralytics_yolo_ImageProcessing_argb2yolo env width height).jvm.destMem[3 * i + 1]? =
        some (f32Round ((((v % 4294967296).toNat / 256 % 256 : ℕ) : ℚ) * f32Round (1 / 255))) ∧
      (Java_com_ultralytics_yolo_ImageProcessing_argb2yolo env width height).jvm.destMem[3 * i + 2]? =
        some (f32Round ((((v % 4294967296).toNat % 256 : ℕ) : ℚ) * f32Round (1 / 255))) := by
  have hmax := env.srcArray.length_le
  unfold jsizeMax at hmax
  have hprod : mulInt32 width height = width * height := mulInt32_eq _ _ (by omega) (by omega)
  have hn : i < (width * height).toNat := by omega
  have hlen' : (mulInt32 width height).toNat ≤ env.srcArray.elems.length := by
    rw [hprod]; omega
  have hcap' : 3 * (mulInt32 width height).toNat ≤ env.destMem.length := by
    rw [hprod]; omega
  have hil : i < env.srcArray.elems.length := by omega
  refine ⟨env.srcArray.elems.getD i 0, ?_, ?_, ?_⟩
  · simp [List.getD, List.getElem?_eq_getElem hil]
  · rw [argb2yolo_ok env width height hdest hsrc hlen' hcap']
  · rw [argb2yolo_ok env width height hdest hsrc hlen' hcap']
    have h := writePixels_pixel env.srcArray.elems (mulInt32 width height).toNat 0 0 env.destMem i
      (by rw [hprod]; exact hn) (by omega)
    simp only [Nat.zero_add] at h
    rw [redByte_eq, greenByte_eq, blueByte_eq] at h
    rw [scaleByte_eq _ (Nat.mod_lt _ (by decide)), scaleByte_eq _ (Nat.mod_lt _ (by decide)),
      scaleByte_eq _ (Nat.mod_lt _ (by decide))] at h
    exact h

/-- C1, on the 4x4 grid of `0x00FF8000`: pixel 5 yields `(1, fl(128/255), 0)`, as does every
other pixel of the grid. -/
theorem argb2yolo_pixel_channels_witness :
    ((5 : Nat) : Int) < 4 * 4 ∧
      (Java_com_ultralytics_yolo_ImageProcessing_argb2yolo gridEnv 4 4).jvm.destMem[15]? = some 1 ∧
      (Java_com_ultralytics_yolo_ImageProcessing_argb2yolo gridEnv 4 4).jvm.destMem[16]? =
        some (f32Round (128 / 255)) ∧
      (Java_com_ultralytics_yolo_ImageProcessing_argb2yolo gridEnv 4 4).jvm.destMem[17]? = some 0 ∧
      (Java_com_ultralytics_yolo_ImageProcessing_argb2yolo gridEnv 4 4).jvm.destMem =
        (List.replicate 16 [1, 8421505 / 16777216, 0]).flatten := by
  obtain ⟨v, hv, _, hr, hg, hb⟩ :=
    argb2yolo_pixel_channels gridEnv 4 4 5 rfl rfl (by decide) (by decide) (by decide)
  have hv5 : v = 16744448 := by
    have h5 : gridEnv.srcArray.elems[5]? = some 16744448 := by decide
    rw [h5] at hv
    exact (Option.some.inj hv).symm
  subst hv5
  refine ⟨by decide, ?_, ?_, ?_, by decide!⟩
  · rw [hr]; decide!
  · rw [hg]; decide!
  · rw [hb]; decide!

/-- C2: for `width ≥ 0` and `height ≥ 0`, with both buffers resolved, a source of at least
`width * height` elements and a destination of at least `3 * width * height` slots, the `int`
product the code computes is the mathematical product, the call returns, it reads exactly the
source elements `0 .. width*height - 1` once each, and every one of the first
`3 * width * height` destination slots holds the scaled channel of the corresponding source
pixel. -/
theorem argb2yolo_processes_all_pixels (env : Jvm) (width height : Int)
    (hw : 0 ≤ width) (hh : 0 ≤ height)
    (hdest : env.destDirect = true) (hsrc : env.srcCritical = true)
    (hlen : width * height ≤ (env.srcArray.elems.length : Int))
    (hcap : 3 * (width * height) ≤ (env.destMem.length : Int)) :
    mulInt32 width height = width * height ∧
      (Java_com_ultralytics_yolo_ImageProcessing_argb2yolo env width height).fault = none ∧
      (Java_com_ultralytics_yolo_ImageProcessing_argb2yolo env width height).trace.filterMap
          Event.loadIndex = List.range (width * height).toNat ∧
      (Java_com_ultralytics_yolo_ImageProcessing_argb2yolo env width height).jvm.destMem.length =
        env.destMem.length ∧
      ∀ i : Nat, i < (width * height).toNat →
        ∃ v : Int, env.srcArray.elems[i]? = some v ∧
          (Java_com_ultralytics_yolo_ImageProcessing_argb2yolo env width height).jvm.destMem[3 * i]? =
            some (scaleByte (redByte (toUInt32 v))) ∧
          (Java_com_ultralytics_yolo_ImageProcessing_argb2yolo env width height).jvm.destMem[3 * i + 1]? =
            some (scaleByte (greenByte (toUInt32 v))) ∧
          (Java_com_ultralytics_yolo_ImageProcessing_argb2yolo env width height).jvm.destMem[3 * i + 2]? =
            some (scaleByte (blueByte (toUInt32 v))) := by
  have hmax := env.srcArray.length_le
  unfold jsizeMax at hmax
  have hnn : 0 ≤ width * height := Int.mul_nonneg hw hh
  have hprod : mulInt32 width height = width * height := mulInt32_eq _ _ hnn (by omega)
  have hlen' : (mulInt32 width height).toNat ≤ env.srcArray.elems.length := by
    rw [hprod]; omega
  have hcap' : 3 * (mulInt32 width height).toNat ≤ env.destMem.length := by
    rw [hprod]; omega
  rw [argb2yolo_ok env width height hdest hsrc hlen' hcap', hprod]
  refine ⟨rfl, rfl, ?_, ?_, ?_⟩
  · simp [List.filterMap_append, pixelEvents_loadIndex, Event.loadIndex, List.range_eq_range']
  · simp only [writePixels_length]
  · intro i hi
    have hil : i < env.srcArray.elems.length := by omega
    refine ⟨env.srcArray.elems.getD i 0, ?_, ?_⟩
    · simp [List.getD, List.getElem?_eq_getElem hil]
    · have h := writePixels_pixel env.srcArray.elems (width * height).toNat 0 0 env.destMem i hi
        (by omega)
      simp only [Nat.zero_add] at h
      exact h

/-- C2 on three pixels in a row (`width = 3`, `height = 1`). -/
theorem argb2yolo_processes_all_pixels_witness :
    (0 : Int) ≤ 3 ∧ (0 : Int) ≤ 1 ∧ mulInt32 3 1 = 3 * 1 ∧
      (Java_com_ultralytics_yolo_ImageProcessing_argb2yolo sampleEnv 3 1).fault = none ∧
      (Java_com_ultralytics_yolo_ImageProcessing_argb2yolo sampleEnv 3 1).trace.filterMap
          Event.loadIndex = [0, 1, 2] ∧
      (Java_com_ultralytics_yolo_ImageProcessing_argb2yolo sampleEnv 3 1).jvm.destMem =
        [1, 8421505 / 16777216, 0, 1, 1, 1, 0, 0, 0, 7] :=
  have h := argb2yolo_processes_all_pixels sampleEnv 3 1 (by decide) (by decide) rfl rfl
    (by decide) (by decide)
  ⟨by decide, by decide, h.1, h.2.1, h.2.2.1, by decide!⟩

/-- C3: when `GetDirectBufferAddress` yields NULL the call returns at once: the only step is
that lookup (the source is neither acquired nor read, nothing is stored), the buffers are
exactly as before, and no fault occurs. -/
theorem argb2yolo_invalid_destination (env : Jvm) (width height : Int)
    (hdest : env.destDirect = false) :
    (Java_com_ultralytics_yolo_ImageProcessing_argb2yolo env width height).jvm = env ∧
      (Java_com_ultralytics_yolo_ImageProcessing_argb2yolo env width height).trace =
        [.GetDirectBufferAddress] ∧
      (Java_com_ultralytics_yolo_ImageProcessing_argb2yolo env width height).fault = none := by
  unfold Java_com_ultralytics_yolo_ImageProcessing_argb2yolo
  simp [GetDirectBufferAddress, hdest, Exec.log, Exec.start]

/-- C3 on the sample buffers with an unresolvable destination. -/
theorem argb2yolo_invalid_destination_witness :
    (Java_com_ultralytics_yolo_ImageProcessing_argb2yolo
        { sampleEnv with destDirect := false } 3 1).jvm.destMem = List.replicate 10 7 ∧
      (Java_com_ultralytics_yolo_ImageProcessing_argb2yolo
        { sampleEnv with destDirect := false } 3 1).trace = [.GetDirectBufferAddress] ∧
      (Java_com_ultralytics_yolo_ImageProcessing_argb2yolo
        { sampleEnv with destDirect := false } 3 1).fault = none :=
  have h := argb2yolo_invalid_destination { sampleEnv with destDirect := false } 3 1 rfl
  ⟨by rw [h.1]; rfl, h.2.1, h.2.2⟩

/-- C4: when `width = 0` or `height = 0` and the destination resolves, then whatever the
source is (even when acquiring it fails) the call stores nothing and loads nothing: its steps
are the two lookups and the release, the buffers are exactly as before, and no fault occurs. -/
theorem argb2yolo_zero_dimension (env : Jvm) (width height : Int)
    (hdest : env.destDirect = true) (hzero : width = 0 ∨ height = 0) :
    (Java_com_ultralytics_yolo_ImageProcessing_argb2yolo env width height).jvm = env ∧
      (Java_com_ultralytics_yolo_ImageProcessing_argb2yolo env width height).trace =
        [.GetDirectBufferAddress, .GetPrimitiveArrayCritical,
          .ReleasePrimitiveArrayCritical JNI_ABORT] ∧
      (Java_com_ultralytics_yolo_ImageProcessing_argb2yolo env width height).fault = none := by
  have hn : (mulInt32 width height).toNat = 0 := by
    rcases hzero with h | h <;> subst h <;> simp [mulInt32]
  unfold Java_com_ultralytics_yolo_ImageProcessing_argb2yolo
  simp [GetDirectBufferAddress, hdest, hn, pixelLoop, Exec.log, Exec.start]

/-- C4 on the sample buffers with `width = 0`, `height = 5`. -/
theorem argb2yolo_zero_dimension_witness :
    ((0 : Int) = 0 ∨ (5 : Int) = 0) ∧
      (Java_com_ultralytics_yolo_ImageProcessing_argb2yolo sampleEnv 0 5).jvm.destMem =
        List.replicate 10 7 ∧
      (Java_com_ultralytics_yolo_ImageProcessing_argb2yolo sampleEnv 0 5).trace =
        [.GetDirectBufferAddress, .GetPrimitiveArrayCritical,
          .ReleasePrimitiveArrayCritical JNI_ABORT] ∧
      (Java_com_ultralytics_yolo_ImageProcessing_argb2yolo sampleEnv 0 5).fault = none :=
  have h := argb2yolo_zero_dimension sampleEnv 0 5 rfl (Or.inl rfl)
  ⟨Or.inl rfl, by rw [h.1]; rfl, h.2.1, h.2.2⟩

set_option maxRecDepth 100000 in
theorem scaleByte_unit : ∀ c < 256, 0 ≤ scaleByte c ∧ scaleByte c ≤ 1 := by
  decide!

/-- C5: every value any call stores to the destination lies in `[0, 1]`; and for every source
element each of its three channel bytes `c` satisfies `c ≤ 255` (and `0 ≤ c`, being a natural
number) with `0 ≤ c * inv255 ≤ 1` in binary32. -/
theorem argb2yolo_outputs_in_unit_interval (env : Jvm) (width height : Int) (v : Int) :
    (∀ p val, Event.store p val ∈
        (Java_com_ultralytics_yolo_ImageProcessing_argb2yolo env width height).trace →
        0 ≤ val ∧ val ≤ 1) ∧
      (redByte (toUInt32 v) ≤ 255 ∧ 0 ≤ scaleByte (redByte (toUInt32 v)) ∧
        scaleByte (redByte (toUInt32 v)) ≤ 1) ∧
      (greenByte (toUInt32 v) ≤ 255 ∧ 0 ≤ scaleByte (greenByte (toUInt32 v)) ∧
        scaleByte (greenByte (toUInt32 v)) ≤ 1) ∧
      (blueByte (toUInt32 v) ≤ 255 ∧ 0 ≤ scaleByte (blueByte (toUInt32 v)) ∧
        scaleByte (blueByte (toUInt32 v)) ≤ 1) := by
  refine ⟨?_, ?_, ?_, ?_⟩
  · intro p val hmem
    have h := argb2yolo_trace
      (fun e => ∀ p val, e = Event.store p val → 0 ≤ val ∧ val ≤ 1)
      (by intro p val h; cases h) (by intro p val h; cases h)
      (by intro q p val h; cases h)
      (by
        intro q c hc p val h
        injection h with _ hval
        rw [← hval]
        exact scaleByte_unit c hc)
      (by intro p val h; cases h) env width height _ hmem
    exact h p val rfl
  · have hb := redByte_lt (toUInt32 v)
    exact ⟨by omega, scaleByte_unit _ hb⟩
  · have hb := greenByte_lt (toUInt32 v)
    exact ⟨by omega, scaleByte_unit _ hb⟩
  · have hb := blueByte_lt (toUInt32 v)
    exact ⟨by omega, scaleByte_unit _ hb⟩

/-- C6: the alpha bits are ignored.  Two source elements that are congruent modulo `2^24`
(the same bits 23..0, whatever bits 31..24 and the sign are) yield the same output triple; for
instance `0xFF123456` (the `jint` `-15584170`, or `4279383126` read unsigned) and `0x00123456`
both yield the scaled bytes `0x12`, `0x34`, `0x56`, and `0xFF000000` and `0x00000000` both
yield `(0, 0, 0)`.  Two calls whose sources are congruent modulo `2^24` element by element
(all else equal) leave the same destination, perform the same steps with the same stored
values, and end the same way. -/
theorem argb2yolo_alpha_ignored (env₁ env₂ : Jvm) (width height : Int)
    (hsrc : env₁.srcArray.elems.map (fun v => v % 16777216) =
      env₂.srcArray.elems.map (fun v => v % 16777216))
    (hmem : env₁.destMem = env₂.destMem) (hdest : env₁.destDirect = env₂.destDirect)
    (hcrit : env₁.srcCritical = env₂.srcCritical) :
    (∀ v₁ v₂ : Int, v₁ % 16777216 = v₂ % 16777216 → pixelTriple v₁ = pixelTriple v₂) ∧
      pixelTriple (-15584170) =
        [9474193 / 134217728, 6842473 / 33554432, 11316397 / 33554432] ∧
      pixelTriple 4279383126 =
        [9474193 / 134217728, 6842473 / 33554432, 11316397 / 33554432] ∧
      pixelTriple 1193046 =
        [9474193 / 134217728, 6842473 / 33554432, 11316397 / 33554432] ∧
      pixelTriple (-16777216) = [0, 0, 0] ∧ pixelTriple 4278190080 = [0, 0, 0] ∧
      pixelTriple 0 = [0, 0, 0] ∧
      (Java_com_ultralytics_yolo_ImageProcessing_argb2yolo env₁ width height).jvm.destMem =
        (Java_com_ultralytics_yolo_ImageProcessing_argb2yolo env₂ width height).jvm.destMem ∧
      (Java_com_ultralytics_yolo_ImageProcessing_argb2yolo env₁ width height).trace =
        (Java_com_ultralytics_yolo_ImageProcessing_argb2yolo env₂ width height).trace ∧
      (Java_com_ultralytics_yolo_ImageProcessing_argb2yolo env₁ width height).fault =
        (Java_com_ultralytics_yolo_ImageProcessing_argb2yolo env₂ width height).fault := by
  refine ⟨fun v₁ v₂ h => pixelTriple_low24 v₁ v₂ ((low24_eq_iff v₁ v₂).mpr h), by decide!,
    by decide!, by decide!, by decide!, by decide!, by decide!, ?_⟩
  have hlow := map_low24_of_emod _ _ hsrc
  have key : (Java_com_ultralytics_yolo_ImageProcessing_argb2yolo env₁ width height).sameOutput
      (Java_com_ultralytics_yolo_ImageProcessing_argb2yolo env₂ width height) := by
    unfold Java_com_ultralytics_yolo_ImageProcessing_argb2yolo
    simp only [GetDirectBufferAddress, GetPrimitiveArrayCritical, hdest, hcrit]
    cases env₂.destDirect with
    | false => exact ⟨hmem, rfl, rfl⟩
    | true =>
      have h := pixelLoop_sameOutput (mulInt32 width height).toNat
        (if env₂.srcCritical = true then some 0 else none) 0
        (((Exec.start env₁).log .GetDirectBufferAddress).log .GetPrimitiveArrayCritical)
        (((Exec.start env₂).log .GetDirectBufferAddress).log .GetPrimitiveArrayCritical)
        hlow ⟨hmem, rfl, rfl⟩
      generalize (if env₂.srcCritical = true then some 0 else none) = sp at h
      simp only [if_true, h.2.2]
      cases hfault : (pixelLoop (mulInt32 width height).toNat sp 0
        (((Exec.start env₂).log .GetDirectBufferAddress).log
          .GetPrimitiveArrayCritical)).fault.isSome with
      | true => simpa only [if_true] using h
      | false =>
        simp only [Bool.false_eq_true, if_false]
        exact ⟨h.1, congrArg (· ++ [Event.ReleasePrimitiveArrayCritical JNI_ABORT]) h.2.1, h.2.2⟩
  exact key

/-- C6 on one pixel: the calls on `0xFF123456` (as the negative `jint` `-15584170`) and on
`0x00123456` leave the same three floats, the scaled bytes `0x12`, `0x34`, `0x56`; the calls
on `0xFF000000` and `0x00000000` both leave `(0, 0, 0)`. -/
theorem argb2yolo_alpha_ignored_witness :
    (-15584170 : Int) % 16777216 = 1193046 % 16777216 ∧
      (Java_com_ultralytics_yolo_ImageProcessing_argb2yolo (onePixelEnv (-15584170)) 1 1).jvm.destMem =
        (Java_com_ultralytics_yolo_ImageProcessing_argb2yolo (onePixelEnv 1193046) 1 1).jvm.destMem ∧
      (Java_com_ultralytics_yolo_ImageProcessing_argb2yolo (onePixelEnv (-15584170)) 1 1).jvm.destMem =
        [9474193 / 134217728, 6842473 / 33554432, 11316397 / 33554432] ∧
      (Java_com_ultralytics_yolo_ImageProcessing_argb2yolo (onePixelEnv 1193046) 1 1).jvm.destMem =
        [9474193 / 134217728, 6842473 / 33554432, 11316397 / 33554432] ∧
      (Java_com_ultralytics_yolo_ImageProcessing_argb2yolo opaqueBlackEnv 1 1).jvm.destMem =
        (Java_com_ultralytics_yolo_ImageProcessing_argb2yolo clearBlackEnv 1 1).jvm.destMem ∧
      (Java_com_ultralytics_yolo_ImageProcessing_argb2yolo clearBlackEnv 1 1).jvm.destMem =
        [0, 0, 0] :=
  ⟨by decide,
    (argb2yolo_alpha_ignored (onePixelEnv (-15584170)) (onePixelEnv 1193046) 1 1 (by decide)
      rfl rfl rfl).2.2.2.2.2.2.2.1,
    by decide!, by decide!,
    (argb2yolo_alpha_ignored opaqueBlackEnv clearBlackEnv 1 1 (by decide)
      rfl rfl rfl).2.2.2.2.2.2.2.1,
    by decide!⟩

/-- C7: the extreme bytes map to the exact endpoints.  The constant `1.0f/255.0f` is
`8421505 * 2^-31`, the binary32 product `255 * inv255` is exactly `1` and `0 * inv255` is
exactly `0`; a source pixel `0xFFFFFFFF` yields `[1, 1, 1]` and `0xFF000000` yields
`[0, 0, 0]`, also through the whole call on a single pixel. -/
theorem argb2yolo_extreme_channels :
    inv255 = 8421505 / 2147483648 ∧ f32Mul (f32OfUInt32 255) inv255 = 1 ∧
      scaleByte 255 = 1 ∧ scaleByte 0 = 0 ∧
      pixelTriple (-1) = [1, 1, 1] ∧ pixelTriple 4294967295 = [1, 1, 1] ∧
      pixelTriple (-16777216) = [0, 0, 0] ∧ pixelTriple 4278190080 = [0, 0, 0] ∧
      (Java_com_ultralytics_yolo_ImageProcessing_argb2yolo whiteEnv 1 1).jvm.destMem = [1, 1, 1] ∧
      (Java_com_ultralytics_yolo_ImageProcessing_argb2yolo opaqueBlackEnv 1 1).jvm.destMem =
        [0, 0, 0] := by
  decide!

/-- C8 fails at the byte `3`: the code writes `6316129 * 2^-29`, the spacing of binary32
numbers at `3/255` is `2^-30`, and the distance of the written value from the real number
`3/255` exceeds that spacing (it is `106/85` of it). -/
theorem scaleByte_three_beyond_one_ulp :
    scaleByte 3 = 6316129 / 536870912 ∧ ulp (3 / 255) = 1 / 1073741824 ∧
      ulp (scaleByte 3) = 1 / 1073741824 ∧
      |scaleByte 3 - 3 / 255| = 106 / 85 * ulp (3 / 255) ∧
      ¬ (|scaleByte 3 - 3 / 255| ≤ ulp (3 / 255)) := by
  decide!

set_option maxRecDepth 100000 in
/-- C8, amended: for every byte `c` in `0..255` the written value `c * inv255` is the
correctly rounded binary32 quotient `fl(c/255)` or the binary32 number just above it, so it is
within one ULP of `fl(c/255)`, and it is within `5/4` ULP of the real number `c/255`. -/
theorem scaleByte_near_quotient : ∀ c < 256,
    (scaleByte c = f32Round (c / 255) ∨ scaleByte c = f32Round (c / 255) + ulp (c / 255)) ∧
      |scaleByte c - f32Round (c / 255)| ≤ ulp (c / 255) ∧
      |scaleByte c - c / 255| ≤ 5 / 4 * ulp (c / 255) := by
  decide!

/-- C8 amended, at the byte `3`. -/
theorem scaleByte_near_quotient_witness :
    (3 : Nat) < 256 ∧
      (scaleByte 3 = f32Round ((3 : Nat) / 255) ∨
        scaleByte 3 = f32Round ((3 : Nat) / 255) + ulp ((3 : Nat) / 255)) ∧
      |scaleByte 3 - f32Round ((3 : Nat) / 255)| ≤ ulp ((3 : Nat) / 255) ∧
      |scaleByte 3 - (3 : Nat) / 255| ≤ 5 / 4 * ulp ((3 : Nat) / 255) :=
  ⟨by decide, scaleByte_near_quotient 3 (by decide)⟩

/-- C9: whatever the input (destination resolved or not, any `width` and `height`, fault or
no fault), the source array after the call is the source array before it; every release the
call performs is in mode `JNI_ABORT`; and a call that acquired the source and returned has
released it in that mode. -/
theorem argb2yolo_source_unchanged (env : Jvm) (width height : Int) :
    (Java_com_ultralytics_yolo_ImageProcessing_argb2yolo env width height).jvm.srcArray =
        env.srcArray ∧
      (∀ mode, Event.ReleasePrimitiveArrayCritical mode ∈
          (Java_com_ultralytics_yolo_ImageProcessing_argb2yolo env width height).trace →
          mode = JNI_ABORT) ∧
      (Event.GetPrimitiveArrayCritical ∈
          (Java_com_ultralytics_yolo_ImageProcessing_argb2yolo env width height).trace →
        (Java_com_ultralytics_yolo_ImageProcessing_argb2yolo env width height).fault = none →
        Event.ReleasePrimitiveArrayCritical JNI_ABORT ∈
          (Java_com_ultralytics_yolo_ImageProcessing_argb2yolo env width height).trace) := by
  refine ⟨argb2yolo_srcArray env width height, ?_, ?_⟩
  · intro mode hmem
    have h := argb2yolo_trace
      (fun e => ∀ mode, e = Event.ReleasePrimitiveArrayCritical mode → mode = JNI_ABORT)
      (by intro m h; cases h) (by intro m h; cases h) (by intro p m h; cases h)
      (by intro p c _ m h; cases h)
      (by intro m h; injection h with hm; exact hm.symm) env width height _ hmem
    exact h mode rfl
  · unfold Java_com_ultralytics_yolo_ImageProcessing_argb2yolo
    simp only
    split
    · intro hmem
      simp [Exec.log, Exec.start] at hmem
    · intro _ hfault
      split
      · rename_i hsome
        rw [if_pos hsome] at hfault
        rw [hfault] at hsome
        simp at hsome
      · simp [Exec.log]

/-- C11: in every execution that returns, the source is either never acquired (the early
return on an unresolved destination, whose only step is the destination lookup) or acquired
once, right after the destination lookup, and released once, in mode `JNI_ABORT`, as the last
step before returning, with only loads and stores in between; so the releases of a returning
call match its acquisitions one for one and are all in mode `JNI_ABORT`. -/
theorem argb2yolo_release_discipline (env : Jvm) (width height : Int)
    (hret : (Java_com_ultralytics_yolo_ImageProcessing_argb2yolo env width height).fault = none) :
    ((env.destDirect = false ∧
          (Java_com_ultralytics_yolo_ImageProcessing_argb2yolo env width height).trace =
            [.GetDirectBufferAddress]) ∨
        (env.destDirect = true ∧ ∃ mid, (∀ e ∈ mid, e.isAccess = true) ∧
          (Java_com_ultralytics_yolo_ImageProcessing_argb2yolo env width height).trace =
            [.GetDirectBufferAddress, .GetPrimitiveArrayCritical] ++ mid ++
              [.ReleasePrimitiveArrayCritical JNI_ABORT])) ∧
      (Java_com_ultralytics_yolo_ImageProcessing_argb2yolo env width height).trace.filterMap
          Event.releaseMode =
        List.replicate
          ((Java_com_ultralytics_yolo_ImageProcessing_argb2yolo env width height).trace.count
            .GetPrimitiveArrayCritical) JNI_ABORT := by
  have hshape := argb2yolo_shape env width height
  rcases hd : env.destDirect with _ | _
  · have ht := hshape.1 hd
    refine ⟨Or.inl ⟨rfl, ht⟩, ?_⟩
    rw [ht]
    decide
  · obtain ⟨mid, amid, ht⟩ := hshape.2 hd
    rw [hret] at ht
    simp only [if_true] at ht
    refine ⟨Or.inr ⟨rfl, mid, amid, ht⟩, ?_⟩
    rw [ht]
    simp only [List.filterMap_append, filterMap_releaseMode_of_isAccess mid amid,
      List.count_append, count_acquire_of_isAccess mid amid]
    decide

/-- C11 on the sample buffers: the call on three pixels returns after one acquisition and one
release in mode `JNI_ABORT`; with an unresolved destination it returns without either. -/
theorem argb2yolo_release_discipline_witness :
    (Java_com_ultralytics_yolo_ImageProcessing_argb2yolo sampleEnv 3 1).fault = none ∧
      (Java_com_ultralytics_yolo_ImageProcessing_argb2yolo sampleEnv 3 1).trace.filterMap
          Event.releaseMode =
        List.replicate
          ((Java_com_ultralytics_yolo_ImageProcessing_argb2yolo sampleEnv 3 1).trace.count
            .GetPrimitiveArrayCritical) JNI_ABORT ∧
      (Java_com_ultralytics_yolo_ImageProcessing_argb2yolo sampleEnv 3 1).trace.count
          .GetPrimitiveArrayCritical = 1 ∧
      (Java_com_ultralytics_yolo_ImageProcessing_argb2yolo indirectEnv 3 1).fault = none ∧
      (Java_com_ultralytics_yolo_ImageProcessing_argb2yolo indirectEnv 3 1).trace.filterMap
          Event.releaseMode =
        List.replicate
          ((Java_com_ultralytics_yolo_ImageProcessing_argb2yolo indirectEnv 3 1).trace.count
            .GetPrimitiveArrayCritical) JNI_ABORT ∧
      (Java_com_ultralytics_yolo_ImageProcessing_argb2yolo indirectEnv 3 1).trace.count
          .GetPrimitiveArrayCritical = 0 :=
  ⟨by decide!, (argb2yolo_release_discipline sampleEnv 3 1 (by decide!)).2, by decide!,
    by decide!, (argb2yolo_release_discipline indirectEnv 3 1 (by decide!)).2, by decide!⟩

/-- C12: a resolved destination is all the call checks.  With it the call always goes on to
acquire the source, whatever the source, `width` and `height` are.  When that acquisition
yields NULL and `numPixels > 0` the first iteration reads through the NULL pointer: the
execution ends in the fault `nullSource` right after the acquisition, with no store and no
release.  When `numPixels ≤ 0` the call loads and stores nothing, releases, and returns. -/
theorem argb2yolo_only_destination_checked (env : Jvm) (width height : Int)
    (hdest : env.destDirect = true) :
    (∃ rest, (Java_com_ultralytics_yolo_ImageProcessing_argb2yolo env width height).trace =
        .GetDirectBufferAddress :: .GetPrimitiveArrayCritical :: rest) ∧
      (env.srcCritical = false → 0 < mulInt32 width height →
        (Java_com_ultralytics_yolo_ImageProcessing_argb2yolo env width height).fault =
            some .nullSource ∧
          (Java_com_ultralytics_yolo_ImageProcessing_argb2yolo env width height).trace =
            [.GetDirectBufferAddress, .GetPrimitiveArrayCritical] ∧
          (Java_com_ultralytics_yolo_ImageProcessing_argb2yolo env width height).jvm = env) ∧
      (mulInt32 width height ≤ 0 →
        (Java_com_ultralytics_yolo_ImageProcessing_argb2yolo env width height).fault = none ∧
          (Java_com_ultralytics_yolo_ImageProcessing_argb2yolo env width height).trace =
            [.GetDirectBufferAddress, .GetPrimitiveArrayCritical,
              .ReleasePrimitiveArrayCritical JNI_ABORT] ∧
          (Java_com_ultralytics_yolo_ImageProcessing_argb2yolo env width height).jvm = env) := by
  refine ⟨?_, ?_, ?_⟩
  · obtain ⟨mid, _, ht⟩ := (argb2yolo_shape env width height).2 hdest
    exact ⟨_, by rw [ht]; rfl⟩
  · intro hsrc hn
    rw [argb2yolo_null_source env width height hdest hsrc hn]
    exact ⟨rfl, rfl, rfl⟩
  · intro hn
    rw [argb2yolo_nonpositive env width height hdest hn]
    exact ⟨rfl, rfl, rfl⟩

/-- C12 on the sample buffers with a source that cannot be acquired: three pixels end in the
fault `nullSource`, zero pixels return normally. -/
theorem argb2yolo_only_destination_checked_witness :
    nullSourceEnv.destDirect = true ∧
      (Java_com_ultralytics_yolo_ImageProcessing_argb2yolo nullSourceEnv 3 1).fault =
        some .nullSource ∧
      (Java_com_ultralytics_yolo_ImageProcessing_argb2yolo nullSourceEnv 3 1).jvm.destMem =
        List.replicate 10 7 ∧
      (Java_com_ultralytics_yolo_ImageProcessing_argb2yolo nullSourceEnv 0 1).fault = none ∧
      (Java_com_ultralytics_yolo_ImageProcessing_argb2yolo nullSourceEnv 0 1).trace =
        [.GetDirectBufferAddress, .GetPrimitiveArrayCritical,
          .ReleasePrimitiveArrayCritical JNI_ABORT] :=
  have h3 := (argb2yolo_only_destination_checked nullSourceEnv 3 1 rfl).2.1 rfl (by decide)
  have h0 := (argb2yolo_only_destination_checked nullSourceEnv 0 1 rfl).2.2 (by decide)
  ⟨rfl, h3.1, by rw [h3.2.2]; rfl, h0.1, h0.2.1⟩

/-- C13 fails when the product wraps: `width = 65537`, `height = -65535` are 32-bit values of
which exactly one is negative, their `int` product is `1`, and on a one-pixel source the call
loads that pixel and stores its three channels. -/
theorem argb2yolo_one_negative_dimension_runs :
    (0 : Int) ≤ 65537 ∧ (65537 : Int) ≤ 2147483647 ∧ (-65535 : Int) < 0 ∧
      (-2147483648 : Int) ≤ -65535 ∧ mulInt32 65537 (-65535) = 1 ∧
      (Java_com_ultralytics_yolo_ImageProcessing_argb2yolo whiteEnv 65537 (-65535)).trace =
        [.GetDirectBufferAddress, .GetPrimitiveArrayCritical, .load 0, .store 0 1, .store 1 1,
          .store 2 1, .ReleasePrimitiveArrayCritical JNI_ABORT] ∧
      (Java_com_ultralytics_yolo_ImageProcessing_argb2yolo whiteEnv 65537 (-65535)).jvm.destMem =
        [1, 1, 1] ∧
      whiteEnv.destMem = [7, 7, 7] := by
  decide!

/-- C13, amended: with the destination resolved, whenever the `int` product `width * height`
is not positive, in particular when exactly one of `width` and `height` is negative and the
mathematical product is at least `-2^31` (so that the `int` product does not wrap), the loop
body runs zero times: the steps are the two lookups and the release in mode `JNI_ABORT`, none
of them a load or a store, both buffers are as before, and the call returns. -/
theorem argb2yolo_nonpositive_product_noop (env : Jvm) (width height : Int)
    (hdest : env.destDirect = true)
    (hprod : mulInt32 width height ≤ 0 ∨
      ((width < 0 ∧ 0 ≤ height ∨ 0 ≤ width ∧ height < 0) ∧
        -2147483648 ≤ width * height)) :
    mulInt32 width height ≤ 0 ∧
      (Java_com_ultralytics_yolo_ImageProcessing_argb2yolo env width height).jvm = env ∧
      (Java_com_ultralytics_yolo_ImageProcessing_argb2yolo env width height).trace =
        [.GetDirectBufferAddress, .GetPrimitiveArrayCritical,
          .ReleasePrimitiveArrayCritical JNI_ABORT] ∧
      (∀ e ∈ (Java_com_ultralytics_yolo_ImageProcessing_argb2yolo env width height).trace,
        e.isAccess = false) ∧
      (Java_com_ultralytics_yolo_ImageProcessing_argb2yolo env width height).fault = none := by
  have hn : mulInt32 width height ≤ 0 := by
    rcases hprod with h | ⟨hsign, hlow⟩
    · exact h
    · have hle : width * height ≤ 0 := by
        rcases hsign with ⟨hw, hh⟩ | ⟨hw, hh⟩
        · exact mul_nonpos_iff.mpr (Or.inr ⟨le_of_lt hw, hh⟩)
        · exact mul_nonpos_iff.mpr (Or.inl ⟨hw, le_of_lt hh⟩)
      unfold mulInt32
      generalize width * height = p at hle hlow
      omega
  rw [argb2yolo_nonpositive env width height hdest hn]
  refine ⟨hn, rfl, rfl, ?_, rfl⟩
  intro e he
  simp only [List.mem_cons, List.mem_singleton, List.not_mem_nil, or_false] at he
  rcases he with he | he | he <;> rw [he] <;> rfl

/-- C13 amended, on the sample buffers with `width = -2`, `height = 3`. -/
theorem argb2yolo_nonpositive_product_noop_witness :
    ((-2 : Int) < 0 ∧ (0 : Int) ≤ 3) ∧ (-2147483648 : Int) ≤ -2 * 3 ∧ mulInt32 (-2) 3 ≤ 0 ∧
      (Java_com_ultralytics_yolo_ImageProcessing_argb2yolo sampleEnv (-2) 3).jvm.destMem =
        List.replicate 10 7 ∧
      (Java_com_ultralytics_yolo_ImageProcessing_argb2yolo sampleEnv (-2) 3).trace =
        [.GetDirectBufferAddress, .GetPrimitiveArrayCritical,
          .ReleasePrimitiveArrayCritical JNI_ABORT] ∧
      (Java_com_ultralytics_yolo_ImageProcessing_argb2yolo sampleEnv (-2) 3).fault = none :=
  have h := argb2yolo_nonpositive_product_noop sampleEnv (-2) 3 rfl
    (Or.inr ⟨Or.inl ⟨by decide, by decide⟩, by decide⟩)
  ⟨⟨by decide, by decide⟩, by decide, h.1, by rw [h.2.1]; rfl, h.2.2.1, h.2.2.2.2⟩

/-- C14: the binary32 product `c * inv255` is strictly increasing in the byte `c` over
`0..255`, so two source elements yield the same output triple exactly when they are congruent
modulo `2^24` (agree on bits 23..0), and two single-pixel calls leave the same destination
exactly then; for instance `0x123456` and `0x123457`, which differ in the lowest blue bit,
yield triples that differ in the third float. -/
theorem argb2yolo_lossless_on_colour_bits (v₁ v₂ : Int) :
    (∀ c d : Nat, c < d → d < 256 → scaleByte c < scaleByte d) ∧
      (pixelTriple v₁ = pixelTriple v₂ ↔ v₁ % 16777216 = v₂ % 16777216) ∧
      ((Java_com_ultralytics_yolo_ImageProcessing_argb2yolo (onePixelEnv v₁) 1 1).jvm.destMem =
          (Java_com_ultralytics_yolo_ImageProcessing_argb2yolo (onePixelEnv v₂) 1 1).jvm.destMem ↔
        v₁ % 16777216 = v₂ % 16777216) ∧
      pixelTriple (-15584170) =
        [9474193 / 134217728, 6842473 / 33554432, 11316397 / 33554432] ∧
      pixelTriple 1193046 =
        [9474193 / 134217728, 6842473 / 33554432, 11316397 / 33554432] ∧
      pixelTriple 1193047 =
        [9474193 / 134217728, 6842473 / 33554432, 11447983 / 33554432] := by
  have hiff : pixelTriple v₁ = pixelTriple v₂ ↔ v₁ % 16777216 = v₂ % 16777216 :=
    ⟨pixelTriple_injective v₁ v₂,
      fun h => pixelTriple_low24 v₁ v₂ ((low24_eq_iff v₁ v₂).mpr h)⟩
  refine ⟨fun c d hcd hd => scaleByte_lt_of_lt c d hcd hd, hiff, ?_, by decide!, by decide!,
    by decide!⟩
  rw [argb2yolo_onePixel v₁, argb2yolo_onePixel v₂]
  exact hiff

/-- C14 on single pixels: `0xFF123456` and `0x00123456` leave the same destination, the
scaled bytes `0x12`, `0x34`, `0x56`, while `0x123456` and `0x123457` leave different ones. -/
theorem argb2yolo_lossless_on_colour_bits_witness :
    (Java_com_ultralytics_yolo_ImageProcessing_argb2yolo (onePixelEnv (-15584170)) 1 1).jvm.destMem =
        (Java_com_ultralytics_yolo_ImageProcessing_argb2yolo (onePixelEnv 1193046) 1 1).jvm.destMem ∧
      ¬ (Java_com_ultralytics_yolo_ImageProcessing_argb2yolo (onePixelEnv 1193046) 1 1).jvm.destMem =
        (Java_com_ultralytics_yolo_ImageProcessing_argb2yolo (onePixelEnv 1193047) 1 1).jvm.destMem ∧
      (Java_com_ultralytics_yolo_ImageProcessing_argb2yolo (onePixelEnv (-15584170)) 1 1).jvm.destMem =
        [9474193 / 134217728, 6842473 / 33554432, 11316397 / 33554432] ∧
      (Java_com_ultralytics_yolo_ImageProcessing_argb2yolo (onePixelEnv 1193047) 1 1).jvm.destMem =
        [9474193 / 134217728, 6842473 / 33554432, 11447983 / 33554432] :=
  ⟨(argb2yolo_lossless_on_colour_bits (-15584170) 1193046).2.2.1.mpr (by decide),
    fun h => absurd ((argb2yolo_lossless_on_colour_bits 1193046 1193047).2.2.1.mp h) (by decide),
    by decide!, by decide!⟩

end ImageProcessing
